import Mathlib

set_option maxHeartbeats 1000000

/-!
Verification development for the request handler in `src/api/research.js`.

JavaScript values are modelled by `JSVal`; JavaScript numbers by `JSNum`
(rationals extended with NaN and the two infinities — double rounding is not
modelled, and no property below depends on it). Operations that can throw a
TypeError in JavaScript (`.trim()` on a non-string, `.includes` on a value
that is neither an array nor a string) are modelled with `Except String`;
the thrown message is caught by the top-level handler and surfaced as a 500
response, exactly as the try/catch in the source does.

Network effects are modelled as oracles: the language-model call is a single
`Except String JSVal` (the parsed reply of `getCandidatePlacesFromLLM`, or
the error it throws), and the geocoder is a function from the request
parameters the source passes to `mapboxGeocode` to the parsed JSON reply (or
a thrown upstream error).
-/

inductive JSNum where
  | nan : JSNum
  | posInf : JSNum
  | negInf : JSNum
  | fin : ℚ → JSNum
deriving DecidableEq

def JSNum.isFinite : JSNum → Bool
  | .fin _ => true
  | _ => false

/-- Model of `Math.min` on two arguments (NaN-propagating). -/
def jsMinN : JSNum → JSNum → JSNum
  | .nan, _ => .nan
  | _, .nan => .nan
  | .posInf, b => b
  | a, .posInf => a
  | .negInf, _ => .negInf
  | _, .negInf => .negInf
  | .fin a, .fin b => .fin (min a b)

/-- Model of `Math.max` on two arguments (NaN-propagating). -/
def jsMaxN : JSNum → JSNum → JSNum
  | .nan, _ => .nan
  | _, .nan => .nan
  | .negInf, b => b
  | a, .negInf => a
  | .posInf, _ => .posInf
  | _, .posInf => .posInf
  | .fin a, .fin b => .fin (max a b)

inductive JSVal where
  | vnull : JSVal
  | vundefined : JSVal
  | vbool : Bool → JSVal
  | vnum : JSNum → JSVal
  | vstr : String → JSVal
  | varr : List JSVal → JSVal
  | vobj : List (String × JSVal) → JSVal

def jsTruthy : JSVal → Bool
  | .vnull => false
  | .vundefined => false
  | .vbool b => b
  | .vnum .nan => false
  | .vnum (.fin q) => q != 0
  | .vnum _ => true
  | .vstr s => s != ""
  | .varr _ => true
  | .vobj _ => true

/-- Model of `a || b`. -/
def jsOr (a b : JSVal) : JSVal := if jsTruthy a then a else b

/-- Property read `v?.k` (and the guarded plain reads of the source, which
only ever dereference values already checked to be truthy objects/arrays):
`null`/`undefined` and primitive bases yield `undefined`; on objects the
last binding for the key wins, as for duplicate keys in parsed JSON. -/
def getField (v : JSVal) (k : String) : JSVal :=
  match v with
  | .vobj l =>
    match l.reverse.find? (fun p => p.1 == k) with
    | some p => p.2
    | none => .vundefined
  | _ => .vundefined

/-- Element read `v?.[i]`. -/
def getIndex (v : JSVal) (i : ℕ) : JSVal :=
  match v with
  | .varr l => l.getD i .vundefined
  | .vstr s =>
    match s.data.get? i with
    | some c => .vstr ⟨[c]⟩
    | none => .vundefined
  | _ => .vundefined

def isJsWs (c : Char) : Bool :=
  c == ' ' || c == '\t' || c == '\n' || c == '\r' || c == '\x0b' || c == '\x0c'

def trimList (l : List Char) : List Char :=
  ((l.dropWhile isJsWs).reverse.dropWhile isJsWs).reverse

/-- Model of `String.prototype.trim`. -/
def jsTrim (s : String) : String := ⟨trimList s.data⟩

/-- Model of `x.trim()` on an arbitrary value: throws a TypeError unless the
value is a string. -/
def jsTrimE (v : JSVal) : Except String String :=
  match v with
  | .vstr s => .ok (jsTrim s)
  | _ => .error ("TypeError: trim is not a function")

/-- Value of a nonempty digit string. -/
def digitsVal (l : List Char) : ℕ :=
  l.foldl (fun a c => a * 10 + (c.toNat - '0'.toNat)) 0

/-- Strips factors of `p` from `n` using explicit fuel; returns the
multiplicity and the remaining cofactor. -/
def stripFactor (p : ℕ) : ℕ → ℕ → ℕ × ℕ
  | 0, n => (0, n)
  | fuel + 1, n =>
    if n % p == 0 && n != 0 && p > 1 then
      let r := stripFactor p fuel (n / p)
      (r.1 + 1, r.2)
    else (0, n)

/-- Smallest decimal exponent clearing the denominator, when it is of the
form `2^a * 5^b` (the only denominators reachable from decimal input). -/
def decExpOf (den : ℕ) : Option ℕ :=
  let r2 := stripFactor 2 den den
  let r5 := stripFactor 5 r2.2 r2.2
  if r5.2 == 1 then some (max r2.1 r5.1) else none

/-- Decimal rendering of a rational, matching the JavaScript rendering on
the decimal-representable values that actually occur (exponent notation for
extreme magnitudes is not modelled). -/
def ratDecimalString (q : ℚ) : String :=
  if q.den == 1 then toString q.num
  else
    match decExpOf q.den with
    | some k =>
      let sign := if q.num < 0 then "-" else ""
      let m : ℕ := q.num.natAbs * (10 ^ k / q.den)
      let ds := (toString m).data
      let ds := if ds.length ≤ k then List.replicate (k + 1 - ds.length) '0' ++ ds else ds
      sign ++ String.mk (ds.take (ds.length - k)) ++ "." ++ String.mk (ds.drop (ds.length - k))
    | none => toString q.num ++ "/" ++ toString q.den

def numToString : JSNum → String
  | .nan => "NaN"
  | .posInf => "Infinity"
  | .negInf => "-Infinity"
  | .fin q => ratDecimalString q

/-- Nesting depth of arrays inside a value, used only as recursion fuel for
the array-join stringification below. -/
def jsDepth : JSVal → ℕ
  | .varr l => 1 + (l.attach.map (fun x => jsDepth x.1)).foldr max 0
  | _ => 0
termination_by v => sizeOf v
decreasing_by
  have := List.sizeOf_lt_of_mem x.2
  simp only [JSVal.varr.sizeOf_spec]
  omega

/-- Stringification of an element inside `Array.prototype.join` (which the
implicit `toString` of an array uses): `null`/`undefined` become empty, and
nested arrays are joined recursively (fuel-bounded; the depth passed at the
single call site always suffices). -/
def jsToStringInArr : ℕ → JSVal → String
  | _, .vnull => ""
  | _, .vundefined => ""
  | _, .vbool b => if b then "true" else "false"
  | _, .vnum n => numToString n
  | _, .vstr s => s
  | _, .vobj _ => "[object Object]"
  | 0, .varr _ => ""
  | fuel + 1, .varr l => String.intercalate (",") (l.map (jsToStringInArr fuel))

/-- Model of the `String(v)` coercion. -/
def jsToString (v : JSVal) : String :=
  match v with
  | .vnull => "null"
  | .vundefined => "undefined"
  | .vbool b => if b then "true" else "false"
  | .vnum n => numToString n
  | .vstr s => s
  | .vobj _ => "[object Object]"
  | .varr l => String.intercalate (",") (l.map (jsToStringInArr (jsDepth (.varr l))))

def hexDigit (c : Char) : Bool :=
  c.isDigit || ('a' ≤ c && c ≤ 'f') || ('A' ≤ c && c ≤ 'F')

def hexVal (c : Char) : ℕ :=
  if c.isDigit then c.toNat - '0'.toNat
  else if 'a' ≤ c && c ≤ 'f' then c.toNat - 'a'.toNat + 10
  else c.toNat - 'A'.toNat + 10

def octDigit (c : Char) : Bool := '0' ≤ c && c ≤ '7'

def binDigit (c : Char) : Bool := c == '0' || c == '1'

def decVal (c : Char) : ℕ := c.toNat - '0'.toNat

/-- Whole-string digit parse in a fixed radix (for the `0x`/`0o`/`0b`
literals accepted by the `Number` coercion). -/
def parseRadixNum (radix : ℕ) (isD : Char → Bool) (val : Char → ℕ) (l : List Char) : JSNum :=
  if !l.isEmpty && l.all isD then
    .fin ((l.foldl (fun a c => a * radix + val c) 0 : ℕ) : ℚ)
  else .nan

/-- Exponent suffix of a decimal numeric literal; `none` when the remaining
text is not empty and not a complete well-formed exponent. -/
def parseExpPart : List Char → Option ℤ
  | [] => some 0
  | c :: rest =>
    if c == 'e' || c == 'E' then
      let sr : ℤ × List Char :=
        match rest with
        | '+' :: t => (1, t)
        | '-' :: t => (-1, t)
        | t => (1, t)
      let ds := sr.2.takeWhile Char.isDigit
      if ds.isEmpty || !(sr.2.drop ds.length).isEmpty then none
      else some (sr.1 * (digitsVal ds : ℤ))
    else none

/-- Unsigned decimal literal `digits [. digits] [exponent]`, requiring the
whole input to be consumed. -/
def parseDecCore (l : List Char) : Option ℚ :=
  let ip := l.takeWhile Char.isDigit
  let rest := l.drop ip.length
  match rest with
  | '.' :: rest2 =>
    let fp := rest2.takeWhile Char.isDigit
    let rest3 := rest2.drop fp.length
    if ip.isEmpty && fp.isEmpty then none
    else
      match parseExpPart rest3 with
      | none => none
      | some e =>
        some (((digitsVal ip : ℚ) + (digitsVal fp : ℚ) / 10 ^ fp.length) * 10 ^ e)
  | _ =>
    if ip.isEmpty then none
    else
      match parseExpPart rest with
      | none => none
      | some e => some ((digitsVal ip : ℚ) * 10 ^ e)

def unsignedMag (l : List Char) : Option (ℚ ⊕ Unit) :=
  if l = "Infinity".data then some (Sum.inr ()) else (parseDecCore l).map Sum.inl

def signedDec (l : List Char) : JSNum :=
  match l with
  | '-' :: rest =>
    match unsignedMag rest with
    | some (Sum.inl q) => .fin (-q)
    | some (Sum.inr _) => .negInf
    | none => .nan
  | '+' :: rest =>
    match unsignedMag rest with
    | some (Sum.inl q) => .fin q
    | some (Sum.inr _) => .posInf
    | none => .nan
  | _ =>
    match unsignedMag l with
    | some (Sum.inl q) => .fin q
    | some (Sum.inr _) => .posInf
    | none => .nan

/-- Model of the string-to-number part of the `Number` coercion. -/
def strToNumber (s : String) : JSNum :=
  match trimList s.data with
  | [] => .fin 0
  | '0' :: c :: rest =>
    if c == 'x' || c == 'X' then parseRadixNum 16 hexDigit hexVal rest
    else if c == 'o' || c == 'O' then parseRadixNum 8 octDigit decVal rest
    else if c == 'b' || c == 'B' then parseRadixNum 2 binDigit decVal rest
    else signedDec ('0' :: c :: rest)
  | l => signedDec l

/-- Model of the `Number(v)` coercion. Arrays coerce through their join
string, objects through `[object Object]` (hence NaN). -/
def toNumber : JSVal → JSNum
  | .vnull => .fin 0
  | .vundefined => .nan
  | .vbool b => .fin (if b then 1 else 0)
  | .vnum n => n
  | .vstr s => strToNumber s
  | .varr l => strToNumber (jsToString (.varr l))
  | .vobj _ => .nan

/-- Model of `parseInt(v, 10)`: stringify, skip leading whitespace, optional
sign, then the longest leading run of decimal digits. -/
def parseIntJS (v : JSVal) : JSNum :=
  let l := (jsToString v).data.dropWhile isJsWs
  let sr : ℤ × List Char :=
    match l with
    | '-' :: t => (-1, t)
    | '+' :: t => (1, t)
    | t => (1, t)
  let ds := sr.2.takeWhile Char.isDigit
  if ds.isEmpty then .nan else .fin ((sr.1 * (digitsVal ds : ℤ) : ℤ) : ℚ)

/-- Truncation toward zero (the ToInteger step of `Array.prototype.slice`). -/
def jsTruncInt (q : ℚ) : ℤ := if q < 0 then -((-q).floor) else q.floor

/-- Model of `l.slice(0, n)` for a numeric `n`. -/
def jsSliceEndList (l : List JSVal) (n : JSNum) : List JSVal :=
  match n with
  | .nan => []
  | .posInf => l
  | .negInf => []
  | .fin q =>
    let i := jsTruncInt q
    if i < 0 then l.take ((l.length : ℤ) + i).toNat else l.take i.toNat

/-- Model of `s.slice(0, e)` for an integral `e` (a negative end counts from
the end of the string, as in JavaScript). -/
def jsSliceStr0 (s : String) (e : ℤ) : String :=
  ⟨if e < 0 then s.data.take ((s.data.length : ℤ) + e).toNat else s.data.take e.toNat⟩

/-- Source helper `clamp(n, min, max)`: `Math.max(min, Math.min(max, n))`. -/
def clamp (n mn mx : JSNum) : JSNum := jsMaxN mn (jsMinN mx n)

/-- Source helper `clampInt(v, min, max, fallback)`. -/
def clampInt (v : JSVal) (mn mx fallback : JSNum) : JSNum :=
  let n := parseIntJS v
  if !n.isFinite then fallback else jsMaxN mn (jsMinN mx n)

/-- Source helper `safeNumber(v, min, max)`: coerce with `Number`, return
`null` for non-finite results, clamp finite ones. -/
def safeNumber (v : JSVal) (mn mx : JSNum) : JSVal :=
  let n := toNumber v
  if !n.isFinite then .vnull else .vnum (clamp n mn mx)

/-- String-level core of `safeString` (everything after the `String(v || "")`
coercion and first trim). -/
def safeStringStr (s : String) (maxLen : ℤ) : String :=
  if s = "" then ""
  else if (s.length : ℤ) > maxLen then jsTrim (jsSliceStr0 s (maxLen - 1)) else s

/-- Source helper `safeString(v, maxLen)`. -/
def safeString (v : JSVal) (maxLen : ℤ) : String :=
  safeStringStr (jsTrim (jsToString (jsOr v (.vstr (""))))) maxLen

/-- Loop of `safeStringArray`: push sanitized truthy items, breaking once the
output has reached `maxItems` (checked after each iteration, as in the
source). -/
def ssaGo (maxItems : ℕ) (maxItemLen : ℤ) : List JSVal → List String → List String
  | [], out => out
  | item :: rest, out =>
    let s := safeString item maxItemLen
    let out2 := if s ≠ "" then out ++ [s] else out
    if maxItems ≤ out2.length then out2 else ssaGo maxItems maxItemLen rest out2

/-- Source helper `safeStringArray(v, maxItems, maxItemLen)`. -/
def safeStringArray (v : JSVal) (maxItems : ℕ) (maxItemLen : ℤ) : List String :=
  match v with
  | .varr l => ssaGo maxItems maxItemLen l []
  | _ => []

/-- Source helper `safeEnum(v, allowed, fallback)`. -/
def safeEnum (v : JSVal) (allowed : List String) (fallback : JSVal) : JSVal :=
  let s := jsTrim (jsToString (jsOr v (.vstr (""))))
  if allowed.contains s then .vstr s else fallback

def categoryAllowed : List String :=
  ["sight", "museum", "neighborhood", "food", "viewpoint", "day_trip", "nature", "activity"]

/-- Source helper `safeCategory(v)` (membership in its `Set` of categories,
fallback `"sight"`). -/
def safeCategory (v : JSVal) : String :=
  let s := jsTrim (jsToString (jsOr v (.vstr (""))))
  if categoryAllowed.contains s then s else "sight"

def isSlugChar (c : Char) : Bool :=
  ('a' ≤ c && c ≤ 'z') || ('0' ≤ c && c ≤ '9')

/-- Replacement `/[^a-z0-9]+/g → "-"`: each maximal run of non-slug
characters collapses to a single hyphen (fuel-structural; the fuel passed at
the call site, the length of the list, always suffices because every step
consumes at least one character). -/
def collapseRunsF : ℕ → List Char → List Char
  | 0, _ => []
  | _ + 1, [] => []
  | fuel + 1, c :: rest =>
    if isSlugChar c then c :: collapseRunsF fuel rest
    else '-' :: collapseRunsF fuel (rest.dropWhile (fun d => !isSlugChar d))

def collapseRuns (l : List Char) : List Char := collapseRunsF l.length l

/-- Replacement `/(^-|-$)/g → ""`: removes one leading and one trailing
hyphen. -/
def stripEdgeHyphens (l : List Char) : List Char :=
  let l1 := match l with
    | '-' :: t => t
    | _ => l
  match l1.getLast? with
  | some '-' => l1.dropLast
  | _ => l1

/-- Source helper `slugify(s)`: stringify, lowercase, collapse non-slug runs
to hyphens, strip edge hyphens, truncate to 64 characters, and fall back to
the fixed string `"place"` when the result is empty (the `|| "place"` at the
end of the chain). -/
def slugify (v : JSVal) : String :=
  let r : String :=
    ⟨(stripEdgeHyphens (collapseRuns ((jsToString (jsOr v (.vstr ("")))).data.map Char.toLower))).take 64⟩
  if r = "" then "place" else r

/-- Modelled from the spec: the slugification operation as the spec words it
(lowercase, collapse non-alphanumeric runs to single hyphens, strip edge
hyphens, truncate to 64 characters) — without the `|| "place"` floor the
source adds inside `slugify`. Used to compare the spec wording of claim C3
with the source behaviour. -/
def specSlugify (v : JSVal) : String :=
  ⟨(stripEdgeHyphens (collapseRuns ((jsToString (jsOr v (.vstr ("")))).data.map Char.toLower))).take 64⟩

/-- Source helper `safeId(s)`; `rnd` models the digits that
`Math.random().toString(16).slice(2)` would contribute. -/
def safeId (v : JSVal) (rnd : String) : String :=
  let id := slugify v
  if id = "" then "place-" ++ rnd else id

def listContainsSub (hay needle : List Char) : Bool :=
  hay.tails.any (fun t => needle.isPrefixOf t)

/-- Model of `x.includes(s)`: array membership for arrays, substring search
for strings, a TypeError for anything else (only truthy non-array non-string
values can reach the call in the source). -/
def jsIncludes (v : JSVal) (s : String) : Except String Bool :=
  match v with
  | .varr l =>
    .ok (l.any (fun x =>
      match x with
      | .vstr t => t == s
      | _ => false))
  | .vstr t => .ok (listContainsSub t.data s.data)
  | _ => .error ("TypeError: includes is not a function")

/-- The rational `0.5`, in normal form so that the kernel can evaluate
comparisons against it (the scientific-notation literal does not reduce). -/
def rat05 : ℚ := ⟨1, 2, by norm_num, by norm_num⟩

/-- The rational `0.78` in normal form. -/
def rat078 : ℚ := ⟨39, 50, by norm_num, by norm_num⟩

/-- The rational `0.72` in normal form. -/
def rat072 : ℚ := ⟨18, 25, by norm_num, by norm_num⟩

/-- The rational `0.65` in normal form. -/
def rat065 : ℚ := ⟨13, 20, by norm_num, by norm_num⟩

/-- Source function `geocodeConfidence(feature)`. -/
def geocodeConfidence (feature : JSVal) : Except String JSNum :=
  match getField feature ("relevance") with
  | .vnum x => .ok (clamp x (.fin 0) (.fin 1))
  | _ =>
    let types := jsOr (getField feature ("place_type")) (.varr [])
    match jsIncludes types ("poi") with
    | .error e => .error e
    | .ok true => .ok (.fin rat078)
    | .ok false =>
      match jsIncludes types ("neighborhood") with
      | .error e => .error e
      | .ok true => .ok (.fin rat072)
      | .ok false => .ok (.fin rat065)

/-- Output entity pushed by the handler loop. `lat`/`lng` keep the raw
values taken from the feature center; `id`, `name`, `category`,
`highlights`, `why_go` and `tags` are strings by construction in the
source. -/
structure Place where
  id : String
  name : String
  category : String
  lat : JSVal
  lng : JSVal
  highlights : List String
  why_go : String
  time_needed_hours : JSVal
  best_time_of_day : JSVal
  tags : List String
  confidence : JSNum

def lowerStr (s : String) : String := ⟨s.data.map Char.toLower⟩

/-- Dedupe key from the source. `p.id` and `p.name` are strings by
construction, so `p.id || ""` is `p.id` (the empty string is its own
fallback). -/
def placeKey (p : Place) : String := lowerStr p.id ++ "|" ++ lowerStr p.name

/-- Loop of `dedupePlaces`, with the `seen` set as a list of keys. -/
def dedupeAux (seen : List String) : List Place → List Place
  | [] => []
  | p :: rest =>
    if seen.contains (placeKey p) then dedupeAux seen rest
    else p :: dedupeAux (placeKey p :: seen) rest

/-- Source helper `dedupePlaces(places)`. -/
def dedupePlaces (places : List Place) : List Place := dedupeAux [] places

/-- Modelled from the spec: keep the first place of every key and delete all
later places with the same key, recursively — the wording of the
deduplication contract. Compared against `dedupePlaces` in claim C6. -/
def dedupeFirstOccurrence : List Place → List Place
  | [] => []
  | p :: rest =>
    p :: dedupeFirstOccurrence (rest.filter (fun q => placeKey q != placeKey p))
termination_by l => l.length
decreasing_by
  have := List.length_filter_le (fun q => placeKey q != placeKey p) rest
  simp only [List.length_cons]
  omega

/-- Inbound request: method and parsed body. -/
structure Req where
  method : String
  body : JSVal

/-- Environment variables read by the handler (`OPENAI_MODEL` only feeds the
outbound request and is absorbed by the language-model oracle). -/
structure Env where
  openai_api_key : JSVal
  mapbox_token : JSVal

/-- Arguments the source passes to `mapboxGeocode` (the token and the
`autocomplete=false` constant are absorbed by the oracle). -/
structure GeoReq where
  query : String
  limit : ℕ
  types : Option String
  bbox : JSVal

/-- Payload of a 200 JSON response. `none` in `destination_bbox` and
`geocode_provider` means the corresponding JSON field is absent (the
empty-candidates response omits both); `some v` means present with value
`v` (possibly null for the bbox). -/
structure SuccessBody where
  destination_query : String
  destination_bbox : Option JSVal
  places : List Place
  generated_at : String
  geocode_provider : Option String
  cache_hit : Bool

inductive Response where
  | text : ℕ → String → Response
  | json : ℕ → SuccessBody → Response

def Response.statusCode : Response → ℕ
  | .text s _ => s
  | .json s _ => s

def Response.placesOf : Response → List Place
  | .json _ b => b.places
  | .text _ _ => []

def bestTimeAllowed : List String :=
  ["morning", "afternoon", "evening", "late_afternoon", "night"]

def candTypes : String := "poi,neighborhood,place,address"

def destTypes : String := "place,region,country"

/-- The object literal pushed for a candidate that survives geocoding
(lines 82-94 of the source). -/
def buildPlace (c : JSVal) (name : String) (lngv latv : JSVal) (conf : JSNum)
    (rnd : String) : Place :=
  { id := safeId (jsOr (getField c ("id")) (.vstr (slugify (.vstr name)))) rnd
    name := name
    category := safeCategory (getField c ("category"))
    lat := latv
    lng := lngv
    highlights := safeStringArray (getField c ("highlights")) 6 80
    why_go := safeString (getField c ("why_go")) 260
    time_needed_hours := safeNumber (getField c ("time_needed_hours")) (.fin rat05) (.fin 12)
    best_time_of_day := safeEnum (getField c ("best_time_of_day")) bestTimeAllowed (.vstr ("afternoon"))
    tags := safeStringArray (getField c ("tags")) 8 30
    confidence := conf }

/-- The per-candidate geocoding loop (step 3 of the handler). `geo` is the
geocoder oracle; `rnd i` models the `Math.random` draw `safeId` would use
for the candidate at position `i`. -/
def geocodeLoop (geo : GeoReq → Except String JSVal) (rnd : ℕ → String)
    (dq : String) (destBbox : JSVal) : List JSVal → ℕ → Except String (List Place)
  | [], _ => .ok []
  | c :: rest, i =>
    match jsTrimE (jsOr (getField c ("name")) (.vstr (""))) with
    | .error e => .error e
    | .ok name =>
      if name = "" then geocodeLoop geo rnd dq destBbox rest (i + 1)
      else
        match geo ⟨name ++ ", " ++ dq, 1, some candTypes, destBbox⟩ with
        | .error e => .error e
        | .ok r =>
          let f := getIndex (getField r ("features")) 0
          if !jsTruthy f then geocodeLoop geo rnd dq destBbox rest (i + 1)
          else
            match getField f ("center") with
            | .varr [lngv, latv] =>
              match geocodeConfidence f with
              | .error e => .error e
              | .ok conf =>
                match geocodeLoop geo rnd dq destBbox rest (i + 1) with
                | .error e => .error e
                | .ok ps => .ok (buildPlace c name lngv latv conf (rnd i) :: ps)
            | _ => geocodeLoop geo rnd dq destBbox rest (i + 1)

/-- The handler body inside the try/catch. Early returns are `.ok` responses;
thrown errors (from the oracles or from a modelled TypeError) are
`.error`. -/
def handlerCore (req : Req) (env : Env) (now : String)
    (llm : Except String JSVal) (geo : GeoReq → Except String JSVal)
    (rnd : ℕ → String) : Except String Response :=
  if req.method ≠ "POST" then .ok (.text 405 ("Method Not Allowed"))
  else
    let b := jsOr req.body (.vobj [])
    let trip := getField b ("trip")
    let options := getField b ("options")
    match jsTrimE (jsOr (getField trip ("destination_query")) (.vstr (""))) with
    | .error e => .error e
    | .ok destinationQuery =>
      if destinationQuery = "" then .ok (.text 400 ("Missing trip.destination_query"))
      else
        let maxPlaces := clampInt (getField options ("max_places")) (.fin 5) (.fin 25) (.fin 15)
        match jsTrimE (jsOr (getField trip ("ask")) (.vstr (""))) with
        | .error e => .error e
        | .ok _ask =>
          if !jsTruthy env.openai_api_key then .ok (.text 500 ("Server missing OPENAI_API_KEY"))
          else if !jsTruthy env.mapbox_token then .ok (.text 500 ("Server missing MAPBOX_TOKEN"))
          else
            match llm with
            | .error e => .error e
            | .ok llmJson =>
              let candidates : List JSVal :=
                match getField llmJson ("places") with
                | .varr l => l
                | _ => []
              if candidates.isEmpty then
                .ok (.json 200 ⟨destinationQuery, none, [], now, none, false⟩)
              else
                match geo ⟨destinationQuery, 1, some destTypes, .vundefined⟩ with
                | .error e => .error e
                | .ok destGeo =>
                  let destBbox :=
                    jsOr (getField (getIndex (getField destGeo ("features")) 0) ("bbox")) .vnull
                  match geocodeLoop geo rnd destinationQuery destBbox
                      (jsSliceEndList candidates maxPlaces) 0 with
                  | .error e => .error e
                  | .ok geocoded =>
                    .ok (.json 200
                      ⟨destinationQuery, some destBbox, dedupePlaces geocoded, now,
                        some ("mapbox"), false⟩)

/-- The exported handler: the try/catch around `handlerCore`, surfacing a
thrown message as a 500 (`err?.message || "Server error"`). -/
def handler (req : Req) (env : Env) (now : String)
    (llm : Except String JSVal) (geo : GeoReq → Except String JSVal)
    (rnd : ℕ → String) : Response :=
  match handlerCore req env now llm geo rnd with
  | .ok r => r
  | .error e => .text 500 (if e = "" then "Server error" else e)

/-- Concrete request body used by the witnesses: a POST body carrying only a
destination query. -/
def exBody : JSVal := .vobj [("trip", .vobj [("destination_query", .vstr ("Lisbon"))])]

/-- Concrete environment with both credentials present. -/
def exEnv : Env := ⟨.vstr ("k"), .vstr ("t")⟩

/-- Concrete candidate with only a name. -/
def exCand : JSVal := .vobj [("name", .vstr ("Belem Tower"))]

/-- Concrete parsed language-model reply with one candidate. -/
def exLlmOne : Except String JSVal := .ok (.vobj [("places", .varr [exCand])])

/-- Concrete parsed language-model reply with an empty places array. -/
def exLlmEmpty : Except String JSVal := .ok (.vobj [("places", .varr [])])

/-- Geocoder oracle whose every reply has one POI feature with the malformed
center `[null, null]` — an array of exactly two non-numbers. -/
def exGeoNullCenter : GeoReq → Except String JSVal := fun _ =>
  .ok (.vobj [("features", .varr [.vobj [("center", .varr [.vnull, .vnull]),
    ("place_type", .varr [.vstr ("poi")])]])])

/-- Geocoder oracle whose every reply has one well-formed POI feature. -/
def exGeoPoi : GeoReq → Except String JSVal := fun _ =>
  .ok (.vobj [("features", .varr [.vobj [("center", .varr [.vnum (.fin (-9)), .vnum (.fin 38)]),
    ("place_type", .varr [.vstr ("poi")])]])])

/-- Geocoder oracle whose every reply has zero features. -/
def exGeoNone : GeoReq → Except String JSVal := fun _ =>
  .ok (.vobj [("features", .varr [])])

/-- Concrete places for the deduplication witnesses. -/
def exPlaceA : Place :=
  ⟨"tower", "Belem Tower", "sight", .vnum (.fin 38), .vnum (.fin (-9)), [], "", .vnull,
    .vstr ("afternoon"), [], .fin 1⟩

/-- A place sharing the key of `exPlaceA` up to case. -/
def exPlaceB : Place :=
  ⟨"Tower", "BELEM TOWER", "sight", .vnum (.fin 1), .vnum (.fin 2), [], "", .vnull,
    .vstr ("morning"), [], .fin 0⟩

/-- A place with a distinct key. -/
def exPlaceC : Place :=
  ⟨"gulbenkian", "Gulbenkian", "museum", .vnum (.fin 38), .vnum (.fin (-9)), [], "", .vnull,
    .vstr ("morning"), [], .fin 1⟩

/-!
Helper lemmas. None of them is the theorem, witness or counterexample of a
claim; the claim theorems below use them.
-/

theorem dropWhile_idem (p : α → Bool) (l : List α) :
    (l.dropWhile p).dropWhile p = l.dropWhile p := by
  induction l with
  | nil => rfl
  | cons a t ih =>
    by_cases h : p a
    · simp [List.dropWhile_cons, h, ih]
    · simp [List.dropWhile_cons, h]

theorem dropWhile_head_false (p : α → Bool) (l : List α) (a : α) (t : List α)
    (h : l.dropWhile p = a :: t) : p a = false := by
  induction l with
  | nil => simp at h
  | cons b t2 ih =>
    by_cases hb : p b
    · rw [List.dropWhile_cons, if_pos hb] at h
      exact ih h
    · rw [List.dropWhile_cons, if_neg hb] at h
      cases h
      simpa using hb

theorem trim_dropWhile_left (l : List Char) :
    (trimList l).dropWhile isJsWs = trimList l := by
  rcases hz : trimList l with _ | ⟨z, zt⟩
  · rfl
  · have hsuff : (l.dropWhile isJsWs).reverse.dropWhile isJsWs <:+ (l.dropWhile isJsWs).reverse :=
      List.dropWhile_suffix _
    have hpre : trimList l <+: l.dropWhile isJsWs := by
      have := hsuff.reverse
      simpa [trimList] using this
    rw [hz] at hpre
    obtain ⟨t2, ht2⟩ := hpre
    have hz2 : l.dropWhile isJsWs = z :: (zt ++ t2) := by
      rw [← ht2]; rfl
    have hzf : isJsWs z = false := dropWhile_head_false _ _ _ _ hz2
    rw [List.dropWhile_cons, if_neg (by simp [hzf])]

theorem trimList_idem (l : List Char) : trimList (trimList l) = trimList l := by
  show (((trimList l).dropWhile isJsWs).reverse.dropWhile isJsWs).reverse = trimList l
  rw [trim_dropWhile_left]
  have hrev : (trimList l).reverse = (l.dropWhile isJsWs).reverse.dropWhile isJsWs := by
    unfold trimList; exact List.reverse_reverse _
  rw [hrev, dropWhile_idem]
  unfold trimList
  rfl

theorem length_dropWhile_le (p : α → Bool) (l : List α) :
    (l.dropWhile p).length ≤ l.length := by
  induction l with
  | nil => simp
  | cons a t ih =>
    by_cases h : p a
    · rw [List.dropWhile_cons, if_pos h]
      exact Nat.le_trans ih (Nat.le_succ _)
    · rw [List.dropWhile_cons, if_neg h]

theorem trimList_length_le (l : List Char) : (trimList l).length ≤ l.length := by
  unfold trimList
  calc ((l.dropWhile isJsWs).reverse.dropWhile isJsWs).reverse.length
      = ((l.dropWhile isJsWs).reverse.dropWhile isJsWs).length := by simp
    _ ≤ (l.dropWhile isJsWs).reverse.length := length_dropWhile_le _ _
    _ = (l.dropWhile isJsWs).length := by simp
    _ ≤ l.length := length_dropWhile_le _ _

theorem jsTrim_idem (s : String) : jsTrim (jsTrim s) = jsTrim s :=
  congrArg String.mk (trimList_idem s.data)

theorem jsTrim_length_le (s : String) : (jsTrim s).length ≤ s.length :=
  trimList_length_le s.data

theorem jsToString_vstr (s : String) : jsToString (.vstr s) = s := rfl

theorem jsOr_vstr_empty (r : String) : jsOr (.vstr r) (.vstr ("")) = .vstr r := by
  by_cases h : r = ""
  · subst h; rfl
  · simp [jsOr, jsTruthy, h]

theorem coerceTrim (r : String) :
    jsTrim (jsToString (jsOr (.vstr r) (.vstr ("")))) = jsTrim r := by
  rw [jsOr_vstr_empty, jsToString_vstr]

theorem anyVstr_iff (l : List JSVal) (s : String) :
    (l.any fun x => match x with | .vstr t => t == s | _ => false) = true ↔ JSVal.vstr s ∈ l := by
  induction l with
  | nil => simp
  | cons a t ih =>
    rw [List.any_cons, Bool.or_eq_true, ih, List.mem_cons]
    cases a with
    | vstr t0 =>
      constructor
      · rintro (h | h)
        · have h2 : t0 = s := by simpa using h
          subst h2
          exact Or.inl rfl
        · exact Or.inr h
      · rintro (h | h)
        · injection h with h2
          exact Or.inl (by simpa using h2.symm)
        · exact Or.inr h
    | vnull => simp
    | vundefined => simp
    | vbool b => simp
    | vnum n => simp
    | varr xs => simp
    | vobj fs => simp

/-- C5: the `max_places` option values 1, 5, 15, 25, 99, "abc" and null map
through `clampInt(v, 5, 25, 15)` (the call on line 15 of the source) to 5,
5, 15, 25, 25, 15 and 15 respectively; in general a non-finite parse falls
back to the default 15 and a finite parse is clamped into [5, 25]. -/
theorem c5_max_places_bounding :
    (clampInt (.vnum (.fin 1)) (.fin 5) (.fin 25) (.fin 15) = .fin 5 ∧
     clampInt (.vnum (.fin 5)) (.fin 5) (.fin 25) (.fin 15) = .fin 5 ∧
     clampInt (.vnum (.fin 15)) (.fin 5) (.fin 25) (.fin 15) = .fin 15 ∧
     clampInt (.vnum (.fin 25)) (.fin 5) (.fin 25) (.fin 15) = .fin 25 ∧
     clampInt (.vnum (.fin 99)) (.fin 5) (.fin 25) (.fin 15) = .fin 25 ∧
     clampInt (.vstr ("abc")) (.fin 5) (.fin 25) (.fin 15) = .fin 15 ∧
     clampInt .vnull (.fin 5) (.fin 25) (.fin 15) = .fin 15) ∧
    (∀ v : JSVal, parseIntJS v = .nan →
      clampInt v (.fin 5) (.fin 25) (.fin 15) = .fin 15) ∧
    (∀ (v : JSVal) (q : ℚ), parseIntJS v = .fin q →
      clampInt v (.fin 5) (.fin 25) (.fin 15) = .fin (max 5 (min 25 q))) := by
  refine ⟨⟨by decide, by decide, by decide, by decide, by decide, by decide, by decide⟩, ?_, ?_⟩
  · intro v h
    simp [clampInt, h, JSNum.isFinite]
  · intro v q h
    simp [clampInt, h, JSNum.isFinite, jsMaxN, jsMinN]

/-- Witness for C5: the universal clauses applied at the concrete inputs
"zz" (a non-finite parse) and the number 7 (a finite parse). -/
theorem c5_max_places_bounding_witness :
    parseIntJS (.vstr ("zz")) = .nan ∧
    clampInt (.vstr ("zz")) (.fin 5) (.fin 25) (.fin 15) = .fin 15 ∧
    parseIntJS (.vnum (.fin 7)) = .fin 7 ∧
    clampInt (.vnum (.fin 7)) (.fin 5) (.fin 25) (.fin 15) = .fin (max 5 (min 25 7)) :=
  ⟨by decide, c5_max_places_bounding.2.1 _ (by decide), by decide,
   c5_max_places_bounding.2.2 _ 7 (by decide)⟩

/-- C4: `geocodeConfidence` returns the clamped relevance when the feature
carries a numeric relevance, and otherwise 0.78 for a `place_type`
containing "poi", 0.72 for one containing "neighborhood" (without "poi"),
and 0.65 in every other case. The constants `rat078`, `rat072` and `rat065`
are the literals 0.78, 0.72 and 0.65 of the source, as the second conjunct
states; the heuristic clauses are quantified over features whose
`place_type` is an array (`l` being its elements), the shape the external
data model supplies — a truthy non-array `place_type` would make the
`includes` call throw. -/
theorem c4_geocode_confidence :
    (∀ (f : JSVal) (x : JSNum), getField f ("relevance") = .vnum x →
        geocodeConfidence f = .ok (clamp x (.fin 0) (.fin 1))) ∧
    (rat078 = (0.78 : ℚ) ∧ rat072 = (0.72 : ℚ) ∧ rat065 = (0.65 : ℚ)) ∧
    (∀ (f : JSVal) (l : List JSVal),
      (∀ x : JSNum, getField f ("relevance") ≠ .vnum x) →
      jsOr (getField f ("place_type")) (.varr []) = .varr l →
        ((JSVal.vstr ("poi") ∈ l → geocodeConfidence f = .ok (.fin rat078)) ∧
         (JSVal.vstr ("poi") ∉ l → JSVal.vstr ("neighborhood") ∈ l →
            geocodeConfidence f = .ok (.fin rat072)) ∧
         (JSVal.vstr ("poi") ∉ l → JSVal.vstr ("neighborhood") ∉ l →
            geocodeConfidence f = .ok (.fin rat065)))) := by
  refine ⟨?_, ⟨?_, ?_, ?_⟩, ?_⟩
  · intro f x h
    simp [geocodeConfidence, h]
  · rw [show rat078 = Rat.mk' 39 50 (by norm_num) (by norm_num) from rfl,
      Rat.mk'_eq_divInt, Rat.divInt_eq_div]
    norm_num
  · rw [show rat072 = Rat.mk' 18 25 (by norm_num) (by norm_num) from rfl,
      Rat.mk'_eq_divInt, Rat.divInt_eq_div]
    norm_num
  · rw [show rat065 = Rat.mk' 13 20 (by norm_num) (by norm_num) from rfl,
      Rat.mk'_eq_divInt, Rat.divInt_eq_div]
    norm_num
  · intro f l hrel harr
    have hconf : geocodeConfidence f =
        (if l.any (fun x => match x with | .vstr t => t == "poi" | _ => false)
         then .ok (.fin rat078)
         else if l.any (fun x => match x with | .vstr t => t == "neighborhood" | _ => false)
         then .ok (.fin rat072)
         else .ok (.fin rat065)) := by
      rcases hfr : getField f ("relevance") with _ | _ | b | n | s | al | ol
      case vnum => exact absurd hfr (hrel _)
      all_goals
        simp only [geocodeConfidence, hfr, harr, jsIncludes]
        cases hp : (l.any fun x => match x with | .vstr t => t == "poi" | _ => false) <;>
          cases hn : (l.any fun x => match x with | .vstr t => t == "neighborhood" | _ => false) <;>
            simp [hp, hn]
    refine ⟨?_, ?_, ?_⟩
    · intro hm2
      have h1 := (anyVstr_iff l ("poi")).mpr hm2
      simp [hconf, h1]
    · intro hnp hm2
      have h1 : (l.any fun x => match x with | .vstr t => t == "poi" | _ => false) = false := by
        rcases hb : (l.any fun x => match x with | .vstr t => t == "poi" | _ => false)
        · rfl
        · exact absurd ((anyVstr_iff l ("poi")).mp hb) hnp
      have h2 := (anyVstr_iff l ("neighborhood")).mpr hm2
      simp [hconf, h1, h2]
    · intro hnp hnn
      have h1 : (l.any fun x => match x with | .vstr t => t == "poi" | _ => false) = false := by
        rcases hb : (l.any fun x => match x with | .vstr t => t == "poi" | _ => false)
        · rfl
        · exact absurd ((anyVstr_iff l ("poi")).mp hb) hnp
      have h2 : (l.any fun x => match x with | .vstr t => t == "neighborhood" | _ => false) = false := by
        rcases hb : (l.any fun x => match x with | .vstr t => t == "neighborhood" | _ => false)
        · rfl
        · exact absurd ((anyVstr_iff l ("neighborhood")).mp hb) hnn
      simp [hconf, h1, h2]

/-- Witness for C4: the relevance clause at a feature with relevance 0.9
(clamped to itself), and the three heuristic clauses at concrete features. -/
theorem c4_geocode_confidence_witness :
    getField (.vobj [("relevance", .vnum (.fin 1))]) ("relevance") = .vnum (.fin 1) ∧
    geocodeConfidence (.vobj [("relevance", .vnum (.fin 1))]) = .ok (clamp (.fin 1) (.fin 0) (.fin 1)) ∧
    geocodeConfidence (.vobj [("place_type", .varr [.vstr ("poi")])]) = .ok (.fin rat078) ∧
    geocodeConfidence (.vobj [("place_type", .varr [.vstr ("neighborhood")])]) = .ok (.fin rat072) ∧
    geocodeConfidence (.vobj [("place_type", .varr [.vstr ("place")])]) = .ok (.fin rat065) :=
  ⟨rfl,
   c4_geocode_confidence.1 _ (.fin 1) rfl,
   (c4_geocode_confidence.2.2 (.vobj [("place_type", .varr [.vstr ("poi")])])
      [.vstr ("poi")] (fun x h => by simp [getField] at h) rfl).1 (by simp),
   (c4_geocode_confidence.2.2 (.vobj [("place_type", .varr [.vstr ("neighborhood")])])
      [.vstr ("neighborhood")] (fun x h => by simp [getField] at h) rfl).2.1
      (by simp) (by simp),
   (c4_geocode_confidence.2.2 (.vobj [("place_type", .varr [.vstr ("place")])])
      [.vstr ("place")] (fun x h => by simp [getField] at h) rfl).2.2
      (by simp) (by simp)⟩

/-- C9 (implicit): a POST request whose body is missing, null, or has no
`trip` object gets a 400 response with the missing-destination message —
the body defaults to an empty object and the absent destination behaves
like a blank one. The hypothesis covers every body for which the `trip`
property of `req.body || {}` is undefined (in particular null, undefined,
and any object without a `trip` key). -/
theorem c9_missing_trip (req : Req) (env : Env) (now : String)
    (llm : Except String JSVal) (geo : GeoReq → Except String JSVal) (rnd : ℕ → String)
    (hm : req.method = "POST")
    (ht : getField (jsOr req.body (.vobj [])) ("trip") = .vundefined) :
    handler req env now llm geo rnd = .text 400 ("Missing trip.destination_query") := by
  have hstep : jsTrimE (jsOr (getField (getField (jsOr req.body (.vobj [])) ("trip"))
      ("destination_query")) (.vstr (""))) = .ok "" := by
    rw [ht]
    rfl
  simp [handler, handlerCore, hm, hstep]

/-- Witness for C9: the theorem applied to a POST request with a null body. -/
theorem c9_missing_trip_witness :
    ({ method := "POST", body := JSVal.vnull } : Req).method = "POST" ∧
    getField (jsOr JSVal.vnull (.vobj [])) ("trip") = .vundefined ∧
    handler ⟨"POST", JSVal.vnull⟩ exEnv "T" exLlmOne exGeoPoi (fun _ => "r")
      = .text 400 ("Missing trip.destination_query") :=
  ⟨rfl, rfl, c9_missing_trip _ _ _ _ _ _ rfl rfl⟩

/-- C7: when the parsed language-model reply has an empty `places` array,
the handler answers 200 with an empty places list, no `bbox` field in the
destination object and no `geocode_provider` field in the meta object
(`none` marks an absent field in `SuccessBody`). The geocoder oracle `geo`
is universally quantified and absent from the conclusion: the destination
geocode call is never reached. -/
theorem c7_empty_places (req : Req) (env : Env) (now : String) (llmJson : JSVal)
    (geo : GeoReq → Except String JSVal) (rnd : ℕ → String) (dq a : String)
    (hm : req.method = "POST")
    (hdq : jsTrimE (jsOr (getField (getField (jsOr req.body (.vobj [])) ("trip"))
      ("destination_query")) (.vstr (""))) = .ok dq)
    (hdq2 : dq ≠ "")
    (hask : jsTrimE (jsOr (getField (getField (jsOr req.body (.vobj [])) ("trip"))
      ("ask")) (.vstr (""))) = .ok a)
    (hoa : jsTruthy env.openai_api_key = true)
    (hmb : jsTruthy env.mapbox_token = true)
    (hpl : getField llmJson ("places") = .varr []) :
    handler req env now (.ok llmJson) geo rnd = .json 200 ⟨dq, none, [], now, none, false⟩ := by
  simp [handler, handlerCore, hm, hdq, hdq2, hask, hoa, hmb, hpl]

/-- Witness for C7: the theorem applied at a concrete request, environment
and empty-places reply, with a geocoder oracle that would fail if it were
ever called. -/
theorem c7_empty_places_witness :
    jsTrimE (jsOr (getField (getField (jsOr exBody (.vobj [])) ("trip"))
      ("destination_query")) (.vstr (""))) = .ok ("Lisbon") ∧
    jsTrimE (jsOr (getField (getField (jsOr exBody (.vobj [])) ("trip"))
      ("ask")) (.vstr (""))) = .ok ("") ∧
    getField (.vobj [("places", JSVal.varr [])]) ("places") = .varr [] ∧
    handler ⟨"POST", exBody⟩ exEnv "T" (.ok (.vobj [("places", JSVal.varr [])]))
      (fun _ => .error ("down")) (fun _ => "r")
      = .json 200 ⟨"Lisbon", none, [], "T", none, false⟩ :=
  ⟨rfl, rfl, rfl,
   c7_empty_places _ _ _ _ _ _ _ _ rfl rfl (by decide) rfl rfl rfl rfl⟩

theorem slugify_eq_spec (v : JSVal) :
    slugify v = if specSlugify v = "" then "place" else specSlugify v := rfl

theorem slugify_ne_empty (v : JSVal) : slugify v ≠ "" := by
  rw [slugify_eq_spec]
  split
  · decide
  · next h => exact h

theorem safeId_eq_slugify (v : JSVal) (rnd : String) : safeId v rnd = slugify v := by
  show (if slugify v = "" then "place-" ++ rnd else slugify v) = slugify v
  rw [if_neg (slugify_ne_empty v)]

/-- C3 counterexample: for the candidate id `"!!!"` the spec-worded
slugification yields the empty string, yet the emitted id is the fixed
string `"place"` — not the randomized fallback the claim announces (here
the random draw `"abc123"` would have produced `"place-abc123"`). -/
theorem c3_counterexample :
    specSlugify (.vstr ("!!!")) = "" ∧
    safeId (.vstr ("!!!")) ("abc123") = "place" ∧
    safeId (.vstr ("!!!")) ("abc123") ≠ "place-" ++ "abc123" :=
  ⟨rfl, rfl, by decide⟩

/-- C3 amended: a truthy candidate id is slugified; otherwise the already
slugified name is slugified a second time; `slugify` itself never returns
the empty string — it substitutes the fixed `"place"` (the `|| "place"`
inside `slugify`), so the randomized fallback of `safeId` is unreachable
and `safeId` always equals `slugify` regardless of the random draw. -/
theorem c3_amended_id_computation :
    (∀ (v : JSVal) (rnd : String), safeId v rnd = slugify v) ∧
    (∀ v : JSVal, slugify v ≠ "") ∧
    (∀ v : JSVal, slugify v = if specSlugify v = "" then "place" else specSlugify v) ∧
    (∀ (cid : JSVal) (nm rnd : String), jsTruthy cid = true →
      safeId (jsOr cid (.vstr (slugify (.vstr nm)))) rnd = slugify cid) ∧
    (∀ (cid : JSVal) (nm rnd : String), jsTruthy cid = false →
      safeId (jsOr cid (.vstr (slugify (.vstr nm)))) rnd
        = slugify (.vstr (slugify (.vstr nm)))) := by
  refine ⟨safeId_eq_slugify, slugify_ne_empty, fun v => rfl, ?_, ?_⟩
  · intro cid nm rnd h
    simp [safeId_eq_slugify, jsOr, h]
  · intro cid nm rnd h
    simp [safeId_eq_slugify, jsOr, h]

/-- Witness for C3 amended: the truthy-id clause at a concrete id and the
falsy-id clause at an undefined id. -/
theorem c3_amended_id_computation_witness :
    jsTruthy (.vstr ("Custom_ID")) = true ∧
    safeId (jsOr (.vstr ("Custom_ID")) (.vstr (slugify (.vstr ("Belem Tower"))))) ("r")
      = slugify (.vstr ("Custom_ID")) ∧
    jsTruthy JSVal.vundefined = false ∧
    safeId (jsOr JSVal.vundefined (.vstr (slugify (.vstr ("Belem Tower"))))) ("r")
      = slugify (.vstr (slugify (.vstr ("Belem Tower")))) :=
  ⟨rfl, c3_amended_id_computation.2.2.2.1 _ ("Belem Tower") ("r") rfl, rfl,
   c3_amended_id_computation.2.2.2.2 _ ("Belem Tower") ("r") rfl⟩

theorem jsSliceStr0_length_le (s : String) (e : ℤ) (he : 0 ≤ e) :
    ((jsSliceStr0 s e).length : ℤ) ≤ e := by
  unfold jsSliceStr0
  rw [if_neg (by omega)]
  have h1 : (String.mk (s.data.take e.toNat)).length ≤ e.toNat := by
    show (s.data.take e.toNat).length ≤ e.toNat
    rw [List.length_take]
    exact min_le_left _ _
  omega

theorem safeString_idem (v : JSVal) (m : ℤ) (hm : 1 ≤ m) :
    safeString (.vstr (safeString v m)) m = safeString v m := by
  have base : ∀ r : String, safeString (.vstr r) m = safeStringStr (jsTrim r) m := by
    intro r
    unfold safeString
    rw [coerceTrim]
  have key : ∀ s : String, jsTrim s = s →
      safeString (.vstr (safeStringStr s m)) m = safeStringStr s m := by
    intro s hs
    by_cases h1 : s = ""
    · have hrhs : safeStringStr s m = "" := by unfold safeStringStr; rw [if_pos h1]
      rw [hrhs, base, show jsTrim "" = "" from rfl]
      unfold safeStringStr
      rw [if_pos rfl]
    · by_cases h2 : (s.length : ℤ) > m
      · have hrhs : safeStringStr s m = jsTrim (jsSliceStr0 s (m - 1)) := by
          unfold safeStringStr
          rw [if_neg h1, if_pos h2]
        rw [hrhs, base, jsTrim_idem]
        by_cases h3 : jsTrim (jsSliceStr0 s (m - 1)) = ""
        · unfold safeStringStr
          rw [if_pos h3, h3]
        · have hlen : ¬(((jsTrim (jsSliceStr0 s (m - 1))).length : ℤ) > m) := by
            have hl1 : (jsTrim (jsSliceStr0 s (m - 1))).length
                ≤ (jsSliceStr0 s (m - 1)).length := jsTrim_length_le _
            have hl2 : ((jsSliceStr0 s (m - 1)).length : ℤ) ≤ m - 1 :=
              jsSliceStr0_length_le _ _ (by omega)
            omega
          unfold safeStringStr
          rw [if_neg h3, if_neg hlen]
      · have hrhs : safeStringStr s m = s := by
          unfold safeStringStr
          rw [if_neg h1, if_neg h2]
        rw [hrhs, base, hs]
        unfold safeStringStr
        rw [if_neg h1, if_neg h2]
  exact key _ (jsTrim_idem _)

theorem safeEnum_idem (v fb : JSVal) (allowed : List String)
    (hfb : safeEnum fb allowed fb = fb) :
    safeEnum (safeEnum v allowed fb) allowed fb = safeEnum v allowed fb := by
  have hval : safeEnum v allowed fb =
      (if allowed.contains (jsTrim (jsToString (jsOr v (.vstr ("")))))
       then .vstr (jsTrim (jsToString (jsOr v (.vstr ("")))))
       else fb) := rfl
  by_cases hc : allowed.contains (jsTrim (jsToString (jsOr v (.vstr ("")))))
  · rw [hval, if_pos hc]
    have heq : jsTrim (jsToString (jsOr
        (.vstr (jsTrim (jsToString (jsOr v (.vstr ("")))))) (.vstr (""))))
        = jsTrim (jsToString (jsOr v (.vstr ("")))) := by
      rw [coerceTrim, jsTrim_idem]
    unfold safeEnum
    rw [heq, if_pos hc]
  · rw [hval, if_neg hc]
    exact hfb

theorem safeCategory_idem (v : JSVal) :
    safeCategory (.vstr (safeCategory v)) = safeCategory v := by
  have hval : safeCategory v =
      (if categoryAllowed.contains (jsTrim (jsToString (jsOr v (.vstr ("")))))
       then jsTrim (jsToString (jsOr v (.vstr (""))))
       else "sight") := rfl
  by_cases hc : categoryAllowed.contains (jsTrim (jsToString (jsOr v (.vstr ("")))))
  · rw [hval, if_pos hc]
    have heq : jsTrim (jsToString (jsOr
        (.vstr (jsTrim (jsToString (jsOr v (.vstr ("")))))) (.vstr (""))))
        = jsTrim (jsToString (jsOr v (.vstr ("")))) := by
      rw [coerceTrim, jsTrim_idem]
    unfold safeCategory
    rw [heq, if_pos hc]
  · rw [hval, if_neg hc]
    rfl

theorem rat_clamp_idem (a b n : ℚ) :
    max a (min b (max a (min b n))) = max a (min b n) := by
  rcases le_total (max a (min b n)) b with h | h
  · rw [min_eq_right h]
    exact max_eq_right (le_max_left a (min b n))
  · rw [min_eq_left h]
    have h1 : max a b ≤ max a (min b n) := max_le (le_max_left _ _) h
    have h2 : max a (min b n) ≤ max a b := max_le_max le_rfl (min_le_left _ _)
    exact le_antisymm h1 h2

theorem safeNumber_idem (v : JSVal) (a b : ℚ) (h : (toNumber v).isFinite = true) :
    safeNumber (safeNumber v (.fin a) (.fin b)) (.fin a) (.fin b)
      = safeNumber v (.fin a) (.fin b) := by
  obtain ⟨n, hn⟩ : ∃ n, toNumber v = .fin n := by
    cases hv : toNumber v
    case fin q => exact ⟨q, rfl⟩
    all_goals rw [hv] at h; simp [JSNum.isFinite] at h
  have h1 : safeNumber v (.fin a) (.fin b) = .vnum (.fin (max a (min b n))) := by
    unfold safeNumber
    rw [hn]
    simp [JSNum.isFinite, clamp, jsMinN, jsMaxN]
  rw [h1]
  unfold safeNumber
  simp [toNumber, JSNum.isFinite, clamp, jsMinN, jsMaxN, rat_clamp_idem]

/-- C2 counterexample: `safeNumber` is not idempotent at the call-site
bounds [0.5, 12] of the source (`rat05` is the literal 0.5): the input
`undefined` coerces to NaN and yields `null`, but re-sanitizing `null`
yields `Number(null) = 0`, which is finite and clamps to 0.5. -/
theorem c2_counterexample :
    rat05 = (0.5 : ℚ) ∧
    safeNumber (safeNumber .vundefined (.fin rat05) (.fin 12)) (.fin rat05) (.fin 12)
      ≠ safeNumber .vundefined (.fin rat05) (.fin 12) := by
  constructor
  · rw [show rat05 = Rat.mk' 1 2 (by norm_num) (by norm_num) from rfl,
      Rat.mk'_eq_divInt, Rat.divInt_eq_div]
    norm_num
  · intro h
    have h1 : safeNumber JSVal.vundefined (.fin rat05) (.fin 12) = JSVal.vnull := rfl
    rw [h1] at h
    have h2 : safeNumber JSVal.vnull (.fin rat05) (.fin 12) = JSVal.vnum (.fin rat05) := rfl
    rw [h2] at h
    exact JSVal.noConfusion h

/-- C2 amended: the string sanitizer is idempotent for every `maxLen ≥ 1`
(every call site uses 260, 80 or 30); the enum sanitizer is idempotent
whenever its fallback is itself a fixed point — in particular whenever the
fallback belongs to the allowed list, as at every call site — and
`safeCategory` is idempotent unconditionally; the number sanitizer is
idempotent exactly on inputs that coerce to a finite number — on any other
input the first application returns `null`, which re-sanitizes to the
clamped 0 (see the counterexample). -/
theorem c2_amended_sanitizer_idempotence :
    (∀ (v : JSVal) (m : ℤ), 1 ≤ m →
      safeString (.vstr (safeString v m)) m = safeString v m) ∧
    (∀ (v fb : JSVal) (allowed : List String), safeEnum fb allowed fb = fb →
      safeEnum (safeEnum v allowed fb) allowed fb = safeEnum v allowed fb) ∧
    (∀ v : JSVal, safeCategory (.vstr (safeCategory v)) = safeCategory v) ∧
    (∀ (v : JSVal) (a b : ℚ), (toNumber v).isFinite = true →
      safeNumber (safeNumber v (.fin a) (.fin b)) (.fin a) (.fin b)
        = safeNumber v (.fin a) (.fin b)) :=
  ⟨safeString_idem, fun v fb allowed hfb => safeEnum_idem v fb allowed hfb,
   safeCategory_idem, safeNumber_idem⟩

/-- Witness for C2 amended: each clause applied at a concrete input — a
string with the call-site bound 80, the `best_time_of_day` enum with its
call-site fallback, a category, and a finite number with the call-site
bounds [0.5, 12]. -/
theorem c2_amended_sanitizer_idempotence_witness :
    (1 : ℤ) ≤ 80 ∧
    safeString (.vstr (safeString (.vstr ("  hello world  ")) 80)) 80
      = safeString (.vstr ("  hello world  ")) 80 ∧
    safeEnum (.vstr ("afternoon")) bestTimeAllowed (.vstr ("afternoon"))
      = .vstr ("afternoon") ∧
    safeEnum (safeEnum (.vstr ("dusk")) bestTimeAllowed (.vstr ("afternoon")))
        bestTimeAllowed (.vstr ("afternoon"))
      = safeEnum (.vstr ("dusk")) bestTimeAllowed (.vstr ("afternoon")) ∧
    safeCategory (.vstr (safeCategory (.vstr ("museum")))) = safeCategory (.vstr ("museum")) ∧
    (toNumber (.vnum (.fin 3))).isFinite = true ∧
    safeNumber (safeNumber (.vnum (.fin 3)) (.fin rat05) (.fin 12)) (.fin rat05) (.fin 12)
      = safeNumber (.vnum (.fin 3)) (.fin rat05) (.fin 12) :=
  ⟨by decide,
   c2_amended_sanitizer_idempotence.1 _ 80 (by decide),
   rfl,
   c2_amended_sanitizer_idempotence.2.1 _ _ _ rfl,
   c2_amended_sanitizer_idempotence.2.2.1 _,
   rfl,
   c2_amended_sanitizer_idempotence.2.2.2 _ rat05 12 rfl⟩

theorem contains_iff_mem_str (l : List String) (a : String) : l.contains a = true ↔ a ∈ l := by
  induction l with
  | nil => simp
  | cons b t ih =>
    rw [List.contains_cons, Bool.or_eq_true, ih, List.mem_cons, beq_iff_eq]

theorem not_mem_of_contains_false (l : List String) (a : String)
    (h : l.contains a = false) : a ∉ l := by
  intro hin
  have h2 := (contains_iff_mem_str l a).mpr hin
  rw [h] at h2
  exact Bool.noConfusion h2

theorem dedupeAux_cons (seen : List String) (p : Place) (t : List Place) :
    dedupeAux seen (p :: t)
      = if seen.contains (placeKey p) then dedupeAux seen t
        else p :: dedupeAux (placeKey p :: seen) t := rfl

theorem dedupeAux_cons_mem (seen : List String) (p : Place) (t : List Place)
    (h : seen.contains (placeKey p) = true) :
    dedupeAux seen (p :: t) = dedupeAux seen t := by
  rw [dedupeAux_cons, if_pos h]

theorem dedupeAux_cons_new (seen : List String) (p : Place) (t : List Place)
    (h : seen.contains (placeKey p) = false) :
    dedupeAux seen (p :: t) = p :: dedupeAux (placeKey p :: seen) t := by
  rw [dedupeAux_cons, if_neg (by rw [h]; exact Bool.noConfusion)]

theorem dedupeAux_sublist (l : List Place) : ∀ seen, (dedupeAux seen l).Sublist l := by
  induction l with
  | nil => intro seen; exact List.Sublist.refl []
  | cons p t ih =>
    intro seen
    cases h : seen.contains (placeKey p) with
    | true =>
      rw [dedupeAux_cons_mem seen p t h]
      exact (ih seen).cons p
    | false =>
      rw [dedupeAux_cons_new seen p t h]
      exact (ih _).cons₂ p

theorem dedupeFirstOccurrence_cons (p : Place) (t : List Place) :
    dedupeFirstOccurrence (p :: t)
      = p :: dedupeFirstOccurrence (t.filter fun q => placeKey q != placeKey p) := by
  rw [dedupeFirstOccurrence]

theorem dedupeAux_eq (l : List Place) : ∀ seen,
    dedupeAux seen l
      = dedupeFirstOccurrence (l.filter fun p => !seen.contains (placeKey p)) := by
  induction l with
  | nil =>
    intro seen
    show ([] : List Place) = dedupeFirstOccurrence []
    rw [dedupeFirstOccurrence]
  | cons p t ih =>
    intro seen
    cases h : seen.contains (placeKey p) with
    | true =>
      rw [dedupeAux_cons_mem seen p t h, ih seen, List.filter_cons,
        if_neg (by rw [h]; exact Bool.noConfusion)]
    | false =>
      rw [dedupeAux_cons_new seen p t h, ih (placeKey p :: seen), List.filter_cons,
        if_pos (by rw [h]; rfl), dedupeFirstOccurrence_cons]
      congr 1
      rw [List.filter_filter]
      congr 1
      apply List.filter_congr
      intro q hq
      rw [List.contains_cons]
      cases hqq : placeKey q == placeKey p <;> cases hs : seen.contains (placeKey q) <;>
        simp [hqq, hs, bne]

/-- C6: `dedupePlaces` equals the spec-worded first-occurrence filter
(`dedupeFirstOccurrence`), its output is a sublist of the input — hence
surviving entries keep first-occurrence order — and two places with equal
lowercased ids and equal lowercased names have equal dedupe keys, so the
later of the two never survives. -/
theorem c6_dedupe_first_wins :
    (∀ l : List Place, dedupePlaces l = dedupeFirstOccurrence l) ∧
    (∀ l : List Place, (dedupePlaces l).Sublist l) ∧
    (∀ p q : Place, lowerStr p.id = lowerStr q.id → lowerStr p.name = lowerStr q.name →
      placeKey p = placeKey q) := by
  refine ⟨?_, fun l => dedupeAux_sublist l [], ?_⟩
  · intro l
    have h := dedupeAux_eq l []
    simpa [dedupePlaces] using h
  · intro p q h1 h2
    unfold placeKey
    rw [h1, h2]

/-- Witness for C6: the key-equality clause applied to two concrete places
that differ only in letter case, plus a concrete run in which the later
duplicate is dropped and order is preserved. -/
theorem c6_dedupe_first_wins_witness :
    lowerStr exPlaceA.id = lowerStr exPlaceB.id ∧
    lowerStr exPlaceA.name = lowerStr exPlaceB.name ∧
    placeKey exPlaceA = placeKey exPlaceB ∧
    dedupePlaces [exPlaceA, exPlaceB, exPlaceC] = [exPlaceA, exPlaceC] :=
  ⟨rfl, rfl, c6_dedupe_first_wins.2.2 exPlaceA exPlaceB rfl rfl, rfl⟩

theorem dedupeAux_keys (l : List Place) : ∀ seen,
    ((dedupeAux seen l).map placeKey).Nodup ∧
    ∀ p ∈ dedupeAux seen l, placeKey p ∉ seen := by
  induction l with
  | nil => intro seen; exact ⟨List.nodup_nil, by intro p hp; exact absurd hp (List.not_mem_nil p)⟩
  | cons p t ih =>
    intro seen
    cases h : seen.contains (placeKey p) with
    | true =>
      rw [dedupeAux_cons_mem seen p t h]
      exact ih seen
    | false =>
      rw [dedupeAux_cons_new seen p t h]
      obtain ⟨hnd, hmem⟩ := ih (placeKey p :: seen)
      refine ⟨?_, ?_⟩
      · rw [List.map_cons, List.nodup_cons]
        refine ⟨?_, hnd⟩
        intro hc
        rw [List.mem_map] at hc
        obtain ⟨q, hq, hkq⟩ := hc
        exact (hmem q hq) (by rw [hkq]; exact List.mem_cons_self _ _)
      · intro q hq
        rcases List.mem_cons.mp hq with rfl | hq2
        · exact not_mem_of_contains_false seen (placeKey q) h
        · intro hin
          exact (hmem q hq2) (List.mem_cons_of_mem _ hin)

theorem dedupeAux_fix (l : List Place) : ∀ seen,
    ((l.map placeKey).Nodup) → (∀ p ∈ l, placeKey p ∉ seen) →
    dedupeAux seen l = l := by
  induction l with
  | nil => intro seen _ _; rfl
  | cons p t ih =>
    intro seen hnd hmem
    have h : seen.contains (placeKey p) = false := by
      cases hb : seen.contains (placeKey p) with
      | false => rfl
      | true =>
        exact absurd ((contains_iff_mem_str _ _).mp hb) (hmem p (List.mem_cons_self _ _))
    rw [dedupeAux_cons_new seen p t h]
    congr 1
    have hnd2 : (placeKey p :: t.map placeKey).Nodup := by simpa using hnd
    apply ih
    · exact (List.nodup_cons.mp hnd2).2
    · intro q hq hin
      rcases List.mem_cons.mp hin with heq | hin2
      · have hnp : placeKey p ∉ t.map placeKey := (List.nodup_cons.mp hnd2).1
        exact hnp (by rw [← heq]; exact List.mem_map_of_mem _ hq)
      · exact (hmem q (List.mem_cons_of_mem _ hq)) hin2

/-- C10 (implicit): `dedupePlaces` is idempotent — its output keys are
pairwise distinct, so a second pass keeps everything — and shrinking: the
output is a subsequence of the input. -/
theorem c10_dedupe_idem_shrinking (l : List Place) :
    dedupePlaces (dedupePlaces l) = dedupePlaces l ∧ (dedupePlaces l).Sublist l := by
  refine ⟨?_, dedupeAux_sublist l []⟩
  unfold dedupePlaces
  apply dedupeAux_fix
  · exact (dedupeAux_keys l []).1
  · intro p _
    exact List.not_mem_nil _

/-- C8: a candidate whose geocode lookup returns zero features is simply
skipped: the loop value equals the loop value of the remaining candidates,
processed from the same state (first clause) — in particular no error is
raised for it. The second clause shows the whole request still answering
200 with the surviving places whenever every other step succeeds. -/
theorem c8_zero_features :
    (∀ (geo : GeoReq → Except String JSVal) (rnd : ℕ → String) (dq : String)
       (bb c r : JSVal) (rest : List JSVal) (i : ℕ) (name : String),
      jsTrimE (jsOr (getField c ("name")) (.vstr (""))) = .ok name →
      name ≠ "" →
      geo ⟨name ++ ", " ++ dq, 1, some candTypes, bb⟩ = .ok r →
      getField r ("features") = .varr [] →
      geocodeLoop geo rnd dq bb (c :: rest) i = geocodeLoop geo rnd dq bb rest (i + 1)) ∧
    (∀ (req : Req) (env : Env) (now : String) (llmJson dg : JSVal)
       (geo : GeoReq → Except String JSVal) (rnd : ℕ → String) (dq a : String)
       (cs : List JSVal) (ps : List Place),
      req.method = "POST" →
      jsTrimE (jsOr (getField (getField (jsOr req.body (.vobj [])) ("trip"))
        ("destination_query")) (.vstr (""))) = .ok dq →
      dq ≠ "" →
      jsTrimE (jsOr (getField (getField (jsOr req.body (.vobj [])) ("trip"))
        ("ask")) (.vstr (""))) = .ok a →
      jsTruthy env.openai_api_key = true →
      jsTruthy env.mapbox_token = true →
      getField llmJson ("places") = .varr cs →
      cs ≠ [] →
      geo ⟨dq, 1, some destTypes, .vundefined⟩ = .ok dg →
      geocodeLoop geo rnd dq
        (jsOr (getField (getIndex (getField dg ("features")) 0) ("bbox")) .vnull)
        (jsSliceEndList cs (clampInt (getField (getField (jsOr req.body (.vobj []))
          ("options")) ("max_places")) (.fin 5) (.fin 25) (.fin 15))) 0 = .ok ps →
      handler req env now (.ok llmJson) geo rnd
        = .json 200 ⟨dq,
            some (jsOr (getField (getIndex (getField dg ("features")) 0) ("bbox")) .vnull),
            dedupePlaces ps, now, some ("mapbox"), false⟩) := by
  constructor
  · intro geo rnd dq bb c r rest i name hname hne hgeo hfeat
    simp [geocodeLoop, hname, hne, hgeo, hfeat, getIndex, jsTruthy]
  · intro req env now llmJson dg geo rnd dq a cs ps hm hdq hdq2 hask hoa hmb hpl hcs hdest hloop
    have hne2 : cs.isEmpty = false := by
      cases cs
      · exact absurd rfl hcs
      · rfl
    simp [handler, handlerCore, hm, hdq, hdq2, hask, hoa, hmb, hpl, hne2, hdest, hloop]

/-- Witness for C8: both clauses applied against a geocoder that always
returns zero features — the single candidate is skipped and the request
answers 200 with an empty places array (while keeping the `bbox` and
`geocode_provider` fields, since candidates were generated). -/
theorem c8_zero_features_witness :
    geocodeLoop exGeoNone (fun _ => "r") ("Lisbon") JSVal.vnull [exCand] 0
      = geocodeLoop exGeoNone (fun _ => "r") ("Lisbon") JSVal.vnull [] 1 ∧
    handler ⟨"POST", exBody⟩ exEnv "T" exLlmOne exGeoNone (fun _ => "r")
      = .json 200 ⟨"Lisbon", some JSVal.vnull, [], "T", some ("mapbox"), false⟩ :=
  ⟨c8_zero_features.1 exGeoNone (fun _ => "r") ("Lisbon") JSVal.vnull exCand
      (.vobj [("features", .varr [])]) [] 0 ("Belem Tower") rfl (by decide) rfl rfl,
   c8_zero_features.2 ⟨"POST", exBody⟩ exEnv "T"
      (.vobj [("places", .varr [exCand])]) (.vobj [("features", .varr [])])
      exGeoNone (fun _ => "r") ("Lisbon") ("") [exCand] [] rfl rfl (by decide) rfl rfl rfl rfl
      (by simp) rfl rfl⟩

/-- C1 counterexample: with a geocoder whose top feature carries the center
`[null, null]` — an array of exactly two entries that are not finite
numbers — the request still answers 200 and the single emitted place has
`lat = null` and `lng = null`: the claimed invariant that every place of a
200 response has finite numeric coordinates is false on the code, which
checks only that `center` is an array of exactly two elements. -/
theorem c1_counterexample :
    (handler ⟨"POST", exBody⟩ exEnv "T" exLlmOne exGeoNullCenter (fun _ => "r")).statusCode
      = 200 ∧
    ((handler ⟨"POST", exBody⟩ exEnv "T" exLlmOne exGeoNullCenter (fun _ => "r")).placesOf.map
      Place.lat) = [JSVal.vnull] ∧
    ((handler ⟨"POST", exBody⟩ exEnv "T" exLlmOne exGeoNullCenter (fun _ => "r")).placesOf.map
      Place.lng) = [JSVal.vnull] :=
  ⟨rfl, rfl, rfl⟩

/-- C1 amended: a candidate is dropped exactly when its top geocode feature
is falsy or its `center` is not an array of exactly two elements; when the
center is a two-element array the entries are emitted verbatim as `lng` and
`lat`, with no finiteness or type check — so malformed two-element centers
flow into the response (see the counterexample). -/
theorem c1_amended_center_check :
    ∀ (geo : GeoReq → Except String JSVal) (rnd : ℕ → String) (dq : String)
      (bb c r lngv latv : JSVal) (rest : List JSVal) (i : ℕ) (name : String) (conf : JSNum),
      jsTrimE (jsOr (getField c ("name")) (.vstr (""))) = .ok name →
      name ≠ "" →
      geo ⟨name ++ ", " ++ dq, 1, some candTypes, bb⟩ = .ok r →
      ((jsTruthy (getIndex (getField r ("features")) 0) = false →
          geocodeLoop geo rnd dq bb (c :: rest) i = geocodeLoop geo rnd dq bb rest (i + 1)) ∧
       (jsTruthy (getIndex (getField r ("features")) 0) = true →
        (∀ l : List JSVal,
          getField (getIndex (getField r ("features")) 0) ("center") = .varr l →
            l.length ≠ 2) →
          geocodeLoop geo rnd dq bb (c :: rest) i = geocodeLoop geo rnd dq bb rest (i + 1)) ∧
       (jsTruthy (getIndex (getField r ("features")) 0) = true →
        getField (getIndex (getField r ("features")) 0) ("center") = .varr [lngv, latv] →
        geocodeConfidence (getIndex (getField r ("features")) 0) = .ok conf →
          geocodeLoop geo rnd dq bb (c :: rest) i
            = (geocodeLoop geo rnd dq bb rest (i + 1)).map
                (fun ps => buildPlace c name lngv latv conf (rnd i) :: ps) ∧
          (buildPlace c name lngv latv conf (rnd i)).lat = latv ∧
          (buildPlace c name lngv latv conf (rnd i)).lng = lngv)) := by
  intro geo rnd dq bb c r lngv latv rest i name conf hname hne hgeo
  refine ⟨?_, ?_, ?_⟩
  · intro hf
    simp [geocodeLoop, hname, hne, hgeo, hf]
  · intro hf hcen
    rcases hc : getField (getIndex (getField r ("features")) 0) ("center") with
      _ | _ | b | n | s | al | ol
    case varr =>
      rcases al with _ | ⟨x, _ | ⟨y, _ | ⟨z, zs⟩⟩⟩
      · simp [geocodeLoop, hname, hne, hgeo, hf, hc]
      · simp [geocodeLoop, hname, hne, hgeo, hf, hc]
      · exact absurd rfl (hcen [x, y] hc)
      · simp [geocodeLoop, hname, hne, hgeo, hf, hc]
    all_goals simp [geocodeLoop, hname, hne, hgeo, hf, hc]
  · intro hf hcen hconf
    refine ⟨?_, rfl, rfl⟩
    rcases hrest : geocodeLoop geo rnd dq bb rest (i + 1) with e | ps
    · simp [geocodeLoop, hname, hne, hgeo, hf, hcen, hconf, hrest, Except.map]
    · simp [geocodeLoop, hname, hne, hgeo, hf, hcen, hconf, hrest, Except.map]

/-- Witness for C1 amended: the two-element clause applied at the concrete
null-center feature — the place is emitted with `lat = null`,
`lng = null`. -/
theorem c1_amended_center_check_witness :
    geocodeLoop exGeoNullCenter (fun _ => "r") ("Lisbon") JSVal.vnull (exCand :: []) 0
      = (geocodeLoop exGeoNullCenter (fun _ => "r") ("Lisbon") JSVal.vnull [] 1).map
          (fun ps => buildPlace exCand ("Belem Tower") JSVal.vnull JSVal.vnull
            (.fin rat078) ("r") :: ps) ∧
    (buildPlace exCand ("Belem Tower") JSVal.vnull JSVal.vnull (.fin rat078) ("r")).lat
      = JSVal.vnull ∧
    (buildPlace exCand ("Belem Tower") JSVal.vnull JSVal.vnull (.fin rat078) ("r")).lng
      = JSVal.vnull :=
  (c1_amended_center_check exGeoNullCenter (fun _ => "r") ("Lisbon") JSVal.vnull exCand
    (.vobj [("features", .varr [.vobj [("center", .varr [JSVal.vnull, JSVal.vnull]),
      ("place_type", .varr [.vstr ("poi")])]])])
    JSVal.vnull JSVal.vnull [] 0 ("Belem Tower") (.fin rat078)
    rfl (by decide) rfl).2.2 rfl rfl rfl
